import Mathlib

/-!
Verification of the realtime synchronization engine of the
`elnur_gabarron` Home Assistant integration
(`custom_components/elnur_gabarron/socketio_coordinator.py`).

Shallow embedding conventions:
* Byte strings are `List Nat` (each element one byte).  Python's
  `bytes.decode("utf-8", errors="ignore")` is total and is the identity on
  the valid UTF-8 byte strings the claims quantify over, so decoded
  messages are modelled at byte level as well.
* Python `dict`s with a closed key set (zone entries, the coordinator
  context) are structures whose fields are `Option`s (`none` = key
  absent); open-ended `status`/`setup`/`version` dictionaries are opaque
  association lists `Smap`.
* The coordinator's published mapping (`self.data`) is an association
  list `Store` preserving Python's dict insertion-order semantics
  (replacing an existing key keeps its position, new keys are appended).
* Each event handler is a pure function from the current store (plus the
  event payload and device context) to the next store together with a
  `Bool` telling whether `async_set_updated_data` was called.
-/

/-! ### Frame codec: `parse_engineio_payload` (lines 24-54) -/

/-- Fuel-indexed worker for `parse_engineio_payload`.  The fuel is an
upper bound on the number of loop iterations; every iteration consumes
at least one byte, so `data.length` fuel always suffices. -/
def parseGo : Nat → List Nat → List (List Nat)
  | 0, _ => []
  | _ + 1, [] => []
  | fuel + 1, b :: rest =>
    if b == 0 then
      -- binary frame marker: scan for the 0xff delimiter
      match rest.dropWhile (fun x => x != 255) with
      | [] => []
      | _ :: tail =>
        -- message runs to the next 0x00 or end of data
        (tail.takeWhile (fun x => x != 0)) ::
          parseGo fuel (tail.dropWhile (fun x => x != 0))
    else
      -- plain text frame: runs to 0x00, 0x1e, or end of data
      let msg := (b :: rest).takeWhile (fun x => x != 0 && x != 30)
      let remaining := (b :: rest).dropWhile (fun x => x != 0 && x != 30)
      if msg.isEmpty then parseGo fuel remaining.tail
      else msg :: parseGo fuel remaining.tail

/-- `parse_engineio_payload` (socketio_coordinator.py lines 24-54):
parse an Engine.IO v3 framed payload into its messages. -/
def parse_engineio_payload (data : List Nat) : List (List Nat) :=
  parseGo data.length data

/-- The encoder used throughout the coordinator (e.g. lines 163, 284,
297): `f"{len(event)}:{event}"`, a length-prefixed text frame.  The char
count of the payload is its byte count for the one-byte characters the
coordinator emits. -/
def encodeFrame (payload : List Nat) : List Nat :=
  (Nat.toDigits 10 payload.length).map Char.toNat ++ 58 :: payload

/-- An Engine.IO v3 binary-framed message as the parser's binary branch
reads it: marker byte 0, then delimiter 0xff, then the payload. -/
def binFrame (payload : List Nat) : List Nat :=
  0 :: 255 :: payload

/-! ### Data model: zones, device context, the published store -/

/-- Opaque `status` / `setup` / `version` / `body` dictionary: string
keys to opaque values. -/
abbrev Smap := List (String × String)

/-- One zone entry of the coordinator's published mapping.  Each field
is a key of the Python dict; `none` models the key being absent. -/
structure Zone where
  dev_id : Option String := none
  device_id : Option String := none
  device_name : Option String := none
  group_id : Option String := none
  group_name : Option String := none
  zone_id : Option Int := none
  name : Option String := none
  status : Option Smap := none
  setup : Option Smap := none
  version : Option Smap := none
deriving DecidableEq

/-- Python `bool(zone)` for a zone dict: falsy iff no key is present. -/
def Zone.pyEmpty (z : Zone) : Bool :=
  z.dev_id.isNone && z.device_id.isNone && z.device_name.isNone &&
    z.group_id.isNone && z.group_name.isNone && z.zone_id.isNone &&
    z.name.isNone && z.status.isNone && z.setup.isNone && z.version.isNone

/-- The coordinator's device/group fields (`self._device_id` etc.). -/
structure Ctx where
  device_id : Option String := none
  device_name : Option String := none
  group_id : Option String := none
  group_name : Option String := none
deriving DecidableEq

/-- One node of a `dev_data` payload. -/
structure Node where
  addr : Option Int := none
  name : Option String := none
  status : Option Smap := none
  setup : Option Smap := none
  version : Option Smap := none
deriving DecidableEq

/-- The published mapping `self.data`: zone key to zone entry, in dict
insertion order. -/
abbrev Store := List (String × Zone)

/-- Dict lookup. -/
def Store.find? : Store → String → Option Zone
  | [], _ => none
  | (k, v) :: rest, key => if k = key then some v else Store.find? rest key

/-- Dict assignment: replace in place if the key exists, append
otherwise (Python dict insertion-order semantics). -/
def Store.insert : Store → String → Zone → Store
  | [], key, v => [(key, v)]
  | (k, w) :: rest, key, v =>
    if k = key then (k, v) :: rest else (k, w) :: Store.insert rest key v

/-- Python truthiness of an optional string (`if self._device_id:`). -/
def truthyStr : Option String → Bool
  | none => false
  | some s => !s.isEmpty

/-- Python truthiness of an optional integer (`if addr:` / `if zone_id:`). -/
def truthyInt : Option Int → Bool
  | none => false
  | some n => n != 0

/-- `f"{device_id}_zone{zone_id}"` for a known device id and an integer
zone id. -/
def zoneKey (deviceId : String) (zoneId : Int) : String :=
  deviceId ++ "_zone" ++ toString zoneId

/-- Python `str` of an optional value as the f-string renders it
(`None` when the key was absent). -/
def pyStrOpt : Option String → String
  | some s => s
  | none => "None"

/-- Python `str` of an optional integer as the f-string renders it. -/
def pyIntOpt : Option Int → String
  | some n => toString n
  | none => "None"

/-! ### Event router: `_handle_update_event` (lines 495-526) -/

/-- `"/acm/"` as a character list. -/
def acmPrefix : List Char := ['/', 'a', 'c', 'm', '/']

def statusChars : List Char := ['s', 't', 'a', 't', 'u', 's']

def setupChars : List Char := ['s', 'e', 't', 'u', 'p']

/-- Python `path.split("/")` for the single-character separator used by
the update handler: leading/trailing/consecutive separators yield empty
segments, and the empty string splits to one empty segment. -/
def splitChar (sep : Char) : List Char → List (List Char)
  | [] => [[]]
  | c :: rest =>
    if c = sep then [] :: splitChar sep rest
    else
      match splitChar sep rest with
      | [] => [[c]]
      | h :: t => (c :: h) :: t

/-- Python `"/acm/" in path`: substring containment. -/
def containsAcm : List Char → Bool
  | [] => false
  | c :: rest => acmPrefix.isPrefixOf (c :: rest) || containsAcm rest

/-- Decimal value of a digit string. -/
def digitsVal (s : List Char) : Nat :=
  s.foldl (fun a c => a * 10 + (c.toNat - 48)) 0

/-- Python `int(str)` restricted to the plain (optionally sign-prefixed)
decimal literals that occur in update paths; any other string raises
`ValueError`, modelled as `none`. -/
def parseNatDigits (s : List Char) : Option Nat :=
  if s ≠ [] ∧ s.all Char.isDigit then some (digitsVal s) else none

def parseIntChars (s : List Char) : Option Int :=
  if s.headD ' ' = '-' then (parseNatDigits s.tail).map (fun n => -(n : Int))
  else (parseNatDigits s).map (fun n => (n : Int))

/-- The per-zone write of `_handle_update_event` (lines 515-519):
replace the `status` or `setup` field with the event body; any other
update type leaves the zone unchanged (but is still republished). -/
def updateZone (updateType : List Char) (body : Smap) (zone : Zone) : Zone :=
  if updateType = statusChars then { zone with status := some body }
  else if updateType = setupChars then { zone with setup := some body }
  else zone

/-- `_handle_update_event` (lines 495-526) as a function of the store:
returns the next store and whether `async_set_updated_data` ran.  A path
without `/acm/`, a short path, a non-integer zone segment, a missing
device id, or an unknown zone key all fall through without publishing. -/
def handle_update_event (ctx : Ctx) (store : Store) (path : List Char)
    (body : Smap) : Store × Bool :=
  if containsAcm path then
    let parts := splitChar '/' path
    if parts.length ≥ 3 then
      match parseIntChars (parts.getD 2 []) with
      | none => (store, false)
      | some z =>
        let updateType := if parts.length > 3 then parts.getD 3 [] else statusChars
        if truthyStr ctx.device_id then
          let key := zoneKey (ctx.device_id.getD "") z
          match store.find? key with
          | some zone => (store.insert key (updateZone updateType body zone), true)
          | none => (store, false)
        else (store, false)
    else (store, false)
  else (store, false)

/-! ### Event router: `_handle_dev_data_event` (lines 528-575) -/

/-- The `zone.update({...})` block of `_handle_dev_data_event`
(lines 557-566): `name` falls back to the existing name, the device and
group names are rewritten from the coordinator context, and `status`,
`setup` and `version` are set to the node's value or `{}`. -/
def devDataMerge (ctx : Ctx) (node : Node) (zone1 : Zone) : Zone :=
  { zone1 with
    name := node.name <|> zone1.name
    device_name := ctx.device_name
    group_name := ctx.group_name
    status := some (node.status.getD [])
    setup := some (node.setup.getD [])
    version := some (node.version.getD []) }

/-- The seed dict built when the zone key is new (lines 545-554). -/
def devDataSeed (ctx : Ctx) (node : Node) (a : Int) : Zone :=
  { dev_id := ctx.device_id
    device_id := ctx.device_id
    device_name := ctx.device_name
    group_id := ctx.group_id
    group_name := ctx.group_name
    zone_id := some a
    name := some (node.name.getD ("Zone " ++ toString a)) }

/-- One iteration of the node loop of `_handle_dev_data_event`
(lines 538-568): skipped entirely unless both `addr` and the device id
are truthy. -/
def devDataApplyNode (ctx : Ctx) (store : Store) (node : Node) : Store :=
  match node.addr with
  | none => store
  | some a =>
    if a != 0 && truthyStr ctx.device_id then
      let key := zoneKey (ctx.device_id.getD "") a
      let zone0 := (store.find? key).getD {}
      let zone1 := if zone0.pyEmpty then devDataSeed ctx node a else zone0
      store.insert key (devDataMerge ctx node zone1)
    else store

/-- `_handle_dev_data_event` (lines 528-575): an empty node list returns
early without publishing; otherwise every node is applied in order and
the result is published exactly once. -/
def handle_dev_data_event (ctx : Ctx) (store : Store) (nodes : List Node) :
    Store × Bool :=
  if nodes.isEmpty then (store, false)
  else (nodes.foldl (devDataApplyNode ctx) store, true)

/-! ### REST fallback refresh of `async_request_refresh` (lines 602-624) -/

/-- The per-zone fetch loop of the REST fallback: walk the current keys
in order; for a zone with truthy `device_id` and `zone_id`, fetch the
status (`api.get_device_status`, abstracted as a function where `none`
models a raised exception) and replace the zone's `status`.  The first
exception aborts the whole refresh: `none` overall, nothing published. -/
def restRefreshGo (api : String → Int → Option Smap) : Store → Option Store
  | [] => some []
  | (k, z) :: rest =>
    if truthyStr z.device_id && truthyInt z.zone_id then
      match api (z.device_id.getD "") (z.zone_id.getD 0) with
      | none => none
      | some st =>
        (restRefreshGo api rest).map (fun r => (k, { z with status := some st }) :: r)
    else (restRefreshGo api rest).map (fun r => (k, z) :: r)

/-- The REST branch of `async_request_refresh` (lines 602-624): on
success the rebuilt mapping is published; a raised exception is caught
and logged, leaving the published data unchanged. -/
def rest_refresh (api : String → Int → Option Smap) (store : Store) :
    Store × Bool :=
  match restRefreshGo api store with
  | some s => (s, true)
  | none => (store, false)

/-! ### Bootstrap / threshold fallback: `_fetch_initial_data` -/

/-- One entry of the device directory returned by `api.get_devices()`. -/
structure DeviceInfo where
  dev_id : Option String := none
  name : Option String := none
  group_id : Option String := none
  group_name : Option String := none
deriving DecidableEq

/-- The coordinator context taken from the first device
(lines 118-122). -/
def ctxOfDevice (d : DeviceInfo) : Ctx :=
  { device_id := d.dev_id
    device_name := some (d.name.getD "Device")
    group_id := d.group_id
    group_name := some (d.group_name.getD "Home") }

/-- The zone entry `_fetch_initial_data` builds from a `dev_data` node
(lines 197-212).  Unlike `_handle_dev_data_event`, there is no
truthiness check on `addr` and no merge with existing data. -/
def fetchNodeEntry (ctx : Ctx) (node : Node) : Zone :=
  { zone_id := node.addr
    device_id := ctx.device_id
    device_name := ctx.device_name
    group_id := ctx.group_id
    group_name := ctx.group_name
    name := some (node.name.getD ("Zone " ++ pyIntOpt node.addr))
    status := some (node.status.getD [])
    setup := some (node.setup.getD [])
    version := some (node.version.getD []) }

/-- The mapping `_fetch_initial_data` returns when `dev_data` arrives
(lines 196-215): built from scratch (`device_data = {}`), independent of
whatever mapping was published before.  When the supervisor's threshold
fallback publishes it (line 342), previously observed keys absent from
the fetched nodes disappear. -/
def fetchInitialFromNodes (ctx : Ctx) (nodes : List Node) : Store :=
  nodes.foldl
    (fun st node =>
      st.insert (pyStrOpt ctx.device_id ++ "_zone" ++ pyIntOpt node.addr)
        (fetchNodeEntry ctx node))
    []

/-- `_fetch_initial_data` seen from its caller (lines 110-115, 241-243):
zero devices raise `UpdateFailed("No devices found")`, re-wrapped by the
outer handler into `UpdateFailed("Failed to fetch initial data")`.  With
at least one device the remainder of the fetch — the token fetch
(line 152), the Socket.IO POST (line 165), the polling and REST
fallbacks — is abstracted as the fallible function `rest`: an exception
anywhere in it (`Except.error`) also reaches the outer handler
(lines 241-243) and is re-raised as the same
`UpdateFailed("Failed to fetch initial data")`. -/
def fetch_initial_data (devices : List DeviceInfo)
    (rest : Ctx → Except String Store) : Except String Store :=
  match devices with
  | [] => Except.error "Failed to fetch initial data"
  | d :: _ =>
    match rest (ctxOfDevice d) with
    | Except.ok s => Except.ok s
    | Except.error _ => Except.error "Failed to fetch initial data"

/-- The supervisor's use of the same fetch as a threshold fallback
(lines 340-345): a successful fetch is published via
`async_set_updated_data`; a raised `UpdateFailed` is caught and logged —
nothing is published, nothing propagates, and the reconnect loop
continues. -/
def listenerFallbackStep (store : Store) (fb : Except String Store) :
    Store × Bool :=
  match fb with
  | Except.ok d => (d, true)
  | Except.error _ => (store, false)

/-! ### Connection supervisor: `_socketio_listener` (lines 311-471) -/

/-- The supervisor counters and the current backoff delay (seconds). -/
structure SupState where
  reconnectCount : Nat := 0
  consecutiveFailures : Nat := 0
  reconnectDelay : Nat := 5
deriving DecidableEq

/-- One failed connection attempt (lines 328-350): increment both
counters, decide the REST-fallback trigger (`failures >= 10`), sleep the
current delay, then double it up to the 60 s cap.  Returns the next
state, whether the fallback fired, and the delay slept. -/
def failStep (s : SupState) : SupState × Bool × Nat :=
  let f := s.consecutiveFailures + 1
  ({ reconnectCount := s.reconnectCount + 1
     consecutiveFailures := f
     reconnectDelay := min (s.reconnectDelay * 2) 60 },
   decide (10 ≤ f), s.reconnectDelay)

/-- The reset on a successful connection (lines 352-355). -/
def successReset (s : SupState) : SupState :=
  { s with reconnectCount := 0, consecutiveFailures := 0, reconnectDelay := 5 }

/-- `n` consecutive failed attempts. -/
def iterFail : Nat → SupState → SupState
  | 0, s => s
  | n + 1, s => iterFail n (failStep s).1

/-- Number of REST-fallback fetches fired during `n` consecutive failed
attempts from state `s`. -/
def runFailCount : Nat → SupState → Nat
  | 0, _ => 0
  | n + 1, s =>
    (if (failStep s).2.1 then 1 else 0) + runFailCount n (failStep s).1

/-! ### Poll-loop activity tracking (lines 389-437) -/

/-- The message loop's effect on `last_activity` (lines 409-437): empty
and no-op (`"6"`) messages are skipped before `last_activity` is
touched; any other message sets it to the poll's `current_time`; a close
frame (`"1"`) sets it and breaks out of the loop. -/
def procMsgs (cur : Nat) : Nat → List String → Nat
  | la, [] => la
  | la, m :: rest =>
    if m = "" ∨ m = "6" then procMsgs cur la rest
    else if m = "1" then cur
    else procMsgs cur cur rest

/-- A message counts toward liveness iff it is neither empty nor the
Engine.IO no-op. -/
def nonNoop (m : String) : Bool := m ≠ "" && m ≠ "6"

/-- The idle watchdog (lines 389-394): force a reconnect when more than
40 s elapsed since `last_activity`. -/
def idleForced (now lastActivity : Nat) : Bool := 40 < now - lastActivity

/-! ### Concrete data used by witnesses and counterexamples -/

def exCtx : Ctx :=
  { device_id := some "D1", device_name := some "Dev",
    group_id := some "G1", group_name := some "Home" }

def exZone3 : Zone :=
  { device_id := some "D1", zone_id := some 3, name := some "Bed",
    status := some [("mtemp", "19")], setup := some [("um", "C")],
    version := some [("fw", "1")] }

def exStore : Store := [("D1_zone3", exZone3)]

/-- The stored zone of the C4 counterexample before the merge. -/
def c4Old : Zone :=
  { device_id := some "D1", zone_id := some 2, name := some "Bath",
    status := some [("mtemp", "21")], setup := some [("um", "C")],
    version := some [("fw", "1")] }

/-- The zone the dev_data merge actually produces for `c4Old` from a
node carrying only `addr`. -/
def c4New : Zone :=
  { device_id := some "D1", zone_id := some 2, name := some "Bath",
    device_name := some "Dev", group_name := some "Home",
    status := some [], setup := some [], version := some [] }

/-! ### Store lemmas -/

theorem Store.find?_insert_self (s : Store) (k : String) (v : Zone) :
    (s.insert k v).find? k = some v := by
  induction s with
  | nil => simp [Store.insert, Store.find?]
  | cons hd tl ih =>
    obtain ⟨a, w⟩ := hd
    by_cases h : a = k <;> simp [Store.insert, Store.find?, h, ih]

theorem Store.find?_insert_ne (s : Store) (k k' : String) (v : Zone)
    (h : k' ≠ k) : (s.insert k v).find? k' = s.find? k' := by
  have h2 : k ≠ k' := Ne.symm h
  induction s with
  | nil => simp [Store.insert, Store.find?, h2]
  | cons hd tl ih =>
    obtain ⟨a, w⟩ := hd
    by_cases ha : a = k
    · subst ha
      simp [Store.insert, Store.find?, h2]
    · simp [Store.insert, Store.find?, ha, ih]

theorem Store.find?_isSome_insert (s : Store) (k k' : String) (v : Zone)
    (h : (s.find? k').isSome) : ((s.insert k v).find? k').isSome := by
  by_cases hk : k' = k
  · subst hk; simp [Store.find?_insert_self]
  · rw [Store.find?_insert_ne s k k' v hk]; exact h

theorem Store.find?_isSome_iff (s : Store) (k : String) :
    (s.find? k).isSome ↔ k ∈ s.map Prod.fst := by
  induction s with
  | nil => simp [Store.find?]
  | cons hd tl ih =>
    obtain ⟨a, w⟩ := hd
    by_cases h : a = k
    · subst h; simp [Store.find?]
    · simp only [Store.find?, if_neg h, List.map_cons, List.mem_cons]
      rw [ih]
      constructor
      · intro hx; exact Or.inr hx
      · rintro (hx | hx)
        · exact absurd hx.symm h
        · exact hx

theorem restRefreshGo_fst (api : String → Int → Option Smap) :
    ∀ s s' : Store, restRefreshGo api s = some s' →
      s'.map Prod.fst = s.map Prod.fst := by
  intro s
  induction s with
  | nil =>
    intro s' h
    simp [restRefreshGo] at h
    simp [← h]
  | cons hd tl ih =>
    intro s' h
    obtain ⟨k, z⟩ := hd
    unfold restRefreshGo at h
    by_cases hc : (truthyStr z.device_id && truthyInt z.zone_id) = true
    · rw [if_pos hc] at h
      cases hapi : api (z.device_id.getD "") (z.zone_id.getD 0) with
      | none => rw [hapi] at h; cases h
      | some st =>
        rw [hapi] at h
        cases hgo : restRefreshGo api tl with
        | none => rw [hgo] at h; cases h
        | some r =>
          rw [hgo] at h
          have h' : (k, { z with status := some st }) :: r = s' := by
            simpa using h
          rw [← h']
          simp [ih r hgo]
    · rw [if_neg hc] at h
      cases hgo : restRefreshGo api tl with
      | none => rw [hgo] at h; cases h
      | some r =>
        rw [hgo] at h
        have h' : (k, z) :: r = s' := by simpa using h
        rw [← h']
        simp [ih r hgo]

/-! ### Frame-codec lemmas -/

theorem parseGo_nil (fuel : Nat) : parseGo fuel [] = [] := by
  cases fuel <;> rfl

/-- A nonempty run of bytes free of the text-frame delimiters parses as
one message: the whole run, verbatim. -/
theorem parseGo_text_all (l : List Nat) (fuel : Nat) (hne : l ≠ [])
    (hall : ∀ b ∈ l, b ≠ 0 ∧ b ≠ 30) (hf : l.length ≤ fuel) :
    parseGo fuel l = [l] := by
  cases l with
  | nil => exact absurd rfl hne
  | cons b rest =>
    cases fuel with
    | zero => simp at hf
    | succ f =>
      have hb : b ≠ 0 := (hall b (by simp)).1
      have hp : ∀ x ∈ b :: rest, (fun x => x != 0 && x != 30) x = true := by
        intro x hx
        have hx2 := hall x hx
        simp [bne_iff_ne, hx2.1, hx2.2]
      have ht : (b :: rest).takeWhile (fun x => x != 0 && x != 30) = b :: rest :=
        List.takeWhile_eq_self_iff.mpr hp
      have hd : (b :: rest).dropWhile (fun x => x != 0 && x != 30) = [] :=
        List.dropWhile_eq_nil_iff.mpr hp
      simp only [parseGo]
      rw [if_neg (by simp [hb])]
      simp [ht, hd, parseGo_nil]

/-- Any chain of binary frames followed by an unterminated binary tail
(a 0x00 marker whose 0xff delimiter never arrives) parses to exactly the
payloads of the complete frames; the tail is dropped. -/
theorem parseGo_binChain :
    ∀ (ps : List (List Nat)) (garbage : List Nat) (fuel : Nat),
      (∀ p ∈ ps, ∀ b ∈ p, b ≠ 0) → (∀ b ∈ garbage, b ≠ 255) →
      ((ps.map binFrame).flatten ++ 0 :: garbage).length ≤ fuel →
      parseGo fuel ((ps.map binFrame).flatten ++ 0 :: garbage) = ps := by
  intro ps
  induction ps with
  | nil =>
    intro garbage fuel _ hg hf
    simp only [List.map_nil, List.flatten_nil, List.nil_append] at hf ⊢
    cases fuel with
    | zero => simp at hf
    | succ f =>
      have hdg : garbage.dropWhile (fun x => x != 255) = [] :=
        List.dropWhile_eq_nil_iff.mpr (by
          intro x hx
          simp [bne_iff_ne, hg x hx])
      simp [parseGo, hdg]
  | cons p ps ih =>
    intro garbage fuel hp hg hf
    have hrest2 : ∃ t : List Nat,
        (ps.map binFrame).flatten ++ 0 :: garbage = 0 :: t := by
      cases ps with
      | nil => exact ⟨garbage, by simp⟩
      | cons q qs =>
        exact ⟨255 :: q ++ ((qs.map binFrame).flatten ++ 0 :: garbage), by
          simp [binFrame]⟩
    obtain ⟨t, hteq⟩ := hrest2
    have hshape :
        ((p :: ps).map binFrame).flatten ++ 0 :: garbage =
          0 :: 255 :: (p ++ (0 :: t)) := by
      simp only [List.map_cons, List.flatten_cons, binFrame, List.append_assoc,
        List.cons_append, hteq]
    rw [hshape] at hf ⊢
    cases fuel with
    | zero => simp at hf
    | succ f =>
      have hpall : ∀ x ∈ p, (fun x => x != 0) x = true := by
        intro x hx
        simp [bne_iff_ne, hp p (by simp) x hx]
      have hstep : parseGo (f + 1) (0 :: 255 :: (p ++ (0 :: t))) =
          ((p ++ (0 :: t)).takeWhile (fun x => x != 0)) ::
            parseGo f ((p ++ (0 :: t)).dropWhile (fun x => x != 0)) := rfl
      have htake : (p ++ (0 :: t)).takeWhile (fun x => x != 0) = p := by
        rw [List.takeWhile_append_of_pos hpall, List.takeWhile_cons]
        simp
      have hdrop : (p ++ (0 :: t)).dropWhile (fun x => x != 0) = 0 :: t := by
        rw [List.dropWhile_append_of_pos hpall, List.dropWhile_cons]
        simp
      rw [hstep, htake, hdrop, ← hteq]
      have hlen : ((ps.map binFrame).flatten ++ 0 :: garbage).length ≤ f := by
        rw [hteq]
        simp only [List.length_cons, List.length_append] at hf ⊢
        omega
      rw [ih garbage f (fun q hq => hp q (by simp [hq])) hg hlen]

/-! ### Decimal digit lemmas (for the length prefix and path segments) -/

theorem digitChar_range (m : Nat) (h : m < 10) :
    48 ≤ (Nat.digitChar m).toNat ∧ (Nat.digitChar m).toNat ≤ 57 := by
  interval_cases m <;> decide

theorem toDigitsCore_range :
    ∀ (fuel n : Nat) (ds : List Char),
      (∀ c ∈ ds, 48 ≤ c.toNat ∧ c.toNat ≤ 57) →
      ∀ c ∈ Nat.toDigitsCore 10 fuel n ds, 48 ≤ c.toNat ∧ c.toNat ≤ 57 := by
  intro fuel
  induction fuel with
  | zero => intro n ds hds c hc; exact hds c hc
  | succ f ih =>
    intro n ds hds c hc
    have hdigit := digitChar_range (n % 10) (Nat.mod_lt n (by norm_num))
    have hcons : ∀ x ∈ Nat.digitChar (n % 10) :: ds,
        48 ≤ x.toNat ∧ x.toNat ≤ 57 := by
      intro x hx
      rcases List.mem_cons.mp hx with hx | hx
      · subst hx; exact hdigit
      · exact hds x hx
    simp only [Nat.toDigitsCore] at hc
    by_cases h10 : n / 10 = 0
    · rw [if_pos h10] at hc
      exact hcons c hc
    · rw [if_neg h10] at hc
      exact ih (n / 10) (Nat.digitChar (n % 10) :: ds) hcons c hc

theorem toDigits_range (n : Nat) :
    ∀ c ∈ Nat.toDigits 10 n, 48 ≤ c.toNat ∧ c.toNat ≤ 57 :=
  toDigitsCore_range (n + 1) n [] (by simp)

theorem encodeFrame_bytes {p : List Nat} (hp : ∀ b ∈ p, b ≠ 0 ∧ b ≠ 30) :
    ∀ b ∈ encodeFrame p, b ≠ 0 ∧ b ≠ 30 := by
  intro b hb
  simp only [encodeFrame, List.mem_append, List.mem_map, List.mem_cons] at hb
  rcases hb with ⟨c, hc, rfl⟩ | rfl | hb
  · have := toDigits_range p.length c hc
    omega
  · omega
  · exact hp b hb

theorem encodeFrame_ne_nil (p : List Nat) : encodeFrame p ≠ [] := by
  simp [encodeFrame]

/-! ### `splitChar` lemmas -/

theorem splitChar_ne_nil (sep : Char) (l : List Char) :
    splitChar sep l ≠ [] := by
  induction l with
  | nil => simp [splitChar]
  | cons c rest ih =>
    by_cases h : c = sep
    · simp [splitChar, h]
    · simp only [splitChar, if_neg h]
      cases hs : splitChar sep rest with
      | nil => simp
      | cons a t => simp

theorem splitChar_sep_cons (sep : Char) (l : List Char) :
    splitChar sep (sep :: l) = [] :: splitChar sep l := by
  simp [splitChar]

theorem splitChar_seg (sep : Char) (seg l : List Char)
    (h : ∀ c ∈ seg, c ≠ sep) :
    splitChar sep (seg ++ l) =
      (seg ++ (splitChar sep l).headD []) :: (splitChar sep l).tail := by
  induction seg with
  | nil =>
    cases hs : splitChar sep l with
    | nil => exact absurd hs (splitChar_ne_nil sep l)
    | cons a t => simp [hs]
  | cons c seg ih =>
    have hc : c ≠ sep := h c (by simp)
    have hrest : ∀ x ∈ seg, x ≠ sep := fun x hx => h x (by simp [hx])
    rw [List.cons_append]
    simp only [splitChar, if_neg hc, ih hrest]
    simp

/-- Splitting the exact path shape `/acm/<digits>/status` used by the
status-update events. -/
theorem splitChar_acm_status (ds : List Char) (hds : ∀ c ∈ ds, c ≠ '/') :
    splitChar '/' (acmPrefix ++ (ds ++ '/' :: statusChars)) =
      [[], ['a', 'c', 'm'], ds, statusChars] := by
  have hstatus : splitChar '/' statusChars = [statusChars] := by decide
  have h2 : splitChar '/' ('/' :: statusChars) = [[], statusChars] := by
    rw [splitChar_sep_cons, hstatus]
  have h3 : splitChar '/' (ds ++ '/' :: statusChars) = [ds, statusChars] := by
    rw [splitChar_seg '/' ds ('/' :: statusChars) hds, h2]
    simp
  have h4 : splitChar '/' (['a', 'c', 'm'] ++ '/' :: (ds ++ '/' :: statusChars)) =
      ['a', 'c', 'm'] :: [ds, statusChars] := by
    rw [splitChar_seg '/' ['a', 'c', 'm'] _ (by decide),
      splitChar_sep_cons, h3]
    simp
  have hshape : acmPrefix ++ (ds ++ '/' :: statusChars) =
      '/' :: (['a', 'c', 'm'] ++ '/' :: (ds ++ '/' :: statusChars)) := by
    simp [acmPrefix]
  rw [hshape, splitChar_sep_cons, h4]

theorem containsAcm_append (tail : List Char) :
    containsAcm (acmPrefix ++ tail) = true := by
  have hpre : acmPrefix.isPrefixOf (acmPrefix ++ tail) = true :=
    List.isPrefixOf_iff_prefix.mpr (List.prefix_append acmPrefix tail)
  have hshape : acmPrefix ++ tail = '/' :: (['a', 'c', 'm', '/'] ++ tail) := by
    simp [acmPrefix]
  rw [hshape] at hpre ⊢
  simp only [containsAcm]
  rw [hpre]
  simp

theorem parseIntChars_digits (ds : List Char) (hne : ds ≠ [])
    (hd : ds.all Char.isDigit = true) :
    parseIntChars ds = some (digitsVal ds : Int) := by
  have hhead : ds.headD ' ' ≠ '-' := by
    cases ds with
    | nil => exact absurd rfl hne
    | cons c rest =>
      have : c.isDigit = true := by
        have := List.all_eq_true.mp hd c (by simp)
        exact this
      simp only [List.headD_cons]
      intro hcontra
      rw [hcontra] at this
      exact absurd this (by decide)
  simp only [parseIntChars, if_neg hhead]
  simp [parseNatDigits, hne, hd]

/-- A single binary frame with arbitrary non-0xff marker bytes between
the 0x00 marker and the 0xff delimiter parses to its bare payload. -/
theorem parseGo_binSingle (p markers : List Nat) (fuel : Nat)
    (hp : ∀ b ∈ p, b ≠ 0) (hm : ∀ b ∈ markers, b ≠ 255)
    (hf : (0 :: (markers ++ 255 :: p)).length ≤ fuel) :
    parseGo fuel (0 :: (markers ++ 255 :: p)) = [p] := by
  cases fuel with
  | zero => simp at hf
  | succ f =>
    have hmall : ∀ x ∈ markers, (fun x => x != 255) x = true := by
      intro x hx
      simp [bne_iff_ne, hm x hx]
    have hdropFF : (markers ++ 255 :: p).dropWhile (fun x => x != 255) =
        255 :: p := by
      rw [List.dropWhile_append_of_pos hmall, List.dropWhile_cons]
      simp
    have hpall : ∀ x ∈ p, (fun x => x != 0) x = true := by
      intro x hx
      simp [bne_iff_ne, hp x hx]
    have htake : p.takeWhile (fun x => x != 0) = p :=
      List.takeWhile_eq_self_iff.mpr hpall
    have hdrop : p.dropWhile (fun x => x != 0) = [] :=
      List.dropWhile_eq_nil_iff.mpr hpall
    simp only [parseGo]
    rw [if_pos (by decide : (((0 : Nat) == 0) = true))]
    rw [hdropFF]
    simp [htake, hdrop, parseGo_nil]

/-! ### Supervisor lemmas -/

theorem iterFail_failures (k : Nat) (s : SupState) :
    (iterFail k s).consecutiveFailures = s.consecutiveFailures + k := by
  induction k generalizing s with
  | zero => simp [iterFail]
  | succ n ih =>
    simp only [iterFail, ih, failStep]
    omega

theorem iterFail_succ (n : Nat) (s : SupState) :
    iterFail (n + 1) s = (failStep (iterFail n s)).1 := by
  induction n generalizing s with
  | zero => rfl
  | succ m ih =>
    show iterFail (m + 1) (failStep s).1 = (failStep (iterFail (m + 1) s)).1
    rw [ih ((failStep s).1)]
    rfl

theorem iterFail_delay_init (k : Nat) :
    (iterFail k {}).reconnectDelay = min (5 * 2 ^ k) 60 := by
  induction k with
  | zero => simp [iterFail]
  | succ n ih =>
    rw [iterFail_succ]
    simp only [failStep, ih, pow_succ]
    omega

theorem runFailCount_from (n : Nat) :
    ∀ s : SupState, runFailCount n s =
      (s.consecutiveFailures + n) - max s.consecutiveFailures 9 := by
  induction n with
  | zero => intro s; simp [runFailCount]
  | succ m ih =>
    intro s
    simp only [runFailCount, ih, failStep]
    by_cases h : 10 ≤ s.consecutiveFailures + 1
    · rw [if_pos (by simpa using h)]
      omega
    · rw [if_neg (by simpa using h)]
      omega

/-! ### Poll-loop activity lemmas -/

theorem procMsgs_characterization (cur : Nat) :
    ∀ (la : Nat) (msgs : List String),
      procMsgs cur la msgs = if msgs.any nonNoop then cur else la := by
  intro la msgs
  induction msgs generalizing la with
  | nil => simp [procMsgs]
  | cons m rest ih =>
    simp only [List.any_cons]
    by_cases hm : m = "" ∨ m = "6"
    · have hnn : nonNoop m = false := by
        rcases hm with hm | hm <;> simp [nonNoop, hm]
      simp only [procMsgs, if_pos hm, hnn, Bool.false_or]
      exact ih la
    · have hnn : nonNoop m = true := by
        push_neg at hm
        simp [nonNoop, hm.1, hm.2]
      simp only [hnn, Bool.true_or]
      by_cases h1 : m = "1"
      · simp [procMsgs, hm, h1]
      · simp only [procMsgs, if_neg hm, if_neg h1]
        rw [ih cur]
        by_cases ha : rest.any nonNoop = true <;> simp [ha]



/-! ## Claim theorems -/

/-- C1 counterexample: for the payload `"abc"` (bytes 97 98 99, free of
delimiter bytes), the encoder emits the text frame `"3:abc"` and
`parse_engineio_payload` returns that whole frame — length prefix and
colon included — as the single decoded element, not the bare payload
`"abc"`.  The decoder never strips the `"<len>:"` prefix. -/
theorem C1_counterexample :
    parse_engineio_payload (encodeFrame [97, 98, 99]) = [[51, 58, 97, 98, 99]] ∧
      [[51, 58, 97, 98, 99]] ≠ [[97, 98, 99]] :=
  ⟨by decide, by decide⟩

/-- C1 (amended): for every nonempty payload free of the delimiter bytes
0x00, 0xff and 0x1e, decoding the encoder's length-prefixed frame
`"<charLength>:<payload>"` yields a one-element sequence whose element
is the ENTIRE frame (length prefix included), not the bare payload; a
binary-framed message (0x00 marker, marker bytes without 0xff, 0xff,
payload) decodes to the bare payload. -/
theorem C1_roundtrip_amended (p markers : List Nat)
    (hp : ∀ b ∈ p, b ≠ 0 ∧ b ≠ 255 ∧ b ≠ 30)
    (hm : ∀ b ∈ markers, b ≠ 255) :
    parse_engineio_payload (encodeFrame p) = [encodeFrame p] ∧
      parse_engineio_payload (0 :: (markers ++ 255 :: p)) = [p] := by
  constructor
  · exact parseGo_text_all (encodeFrame p) (encodeFrame p).length
      (encodeFrame_ne_nil p)
      (encodeFrame_bytes (fun b hb => ⟨(hp b hb).1, (hp b hb).2.2⟩))
      (le_refl _)
  · exact parseGo_binSingle p markers _ (fun b hb => (hp b hb).1) hm (le_refl _)

/-- C1 witness: the amended round-trip at the concrete payload `"abc"`
with one digit marker byte. -/
theorem C1_witness :
    parse_engineio_payload (encodeFrame [97, 98, 99]) = [encodeFrame [97, 98, 99]] ∧
      parse_engineio_payload (0 :: ([48] ++ 255 :: [97, 98, 99])) = [[97, 98, 99]] := by
  refine ⟨?_, ?_⟩
  · exact (C1_roundtrip_amended [97, 98, 99] [48] (by decide) (by decide)).1
  · exact (C1_roundtrip_amended [97, 98, 99] [48] (by decide) (by decide)).2

/-- C8: `parse_engineio_payload` is total in this embedding (mirroring
that the Python loop never raises: UTF-8 decoding uses
`errors="ignore"` and all other operations are bounds-checked scans):
empty input yields the empty sequence, and an unterminated binary tail
after any chain of well-formed binary frames is dropped silently,
yielding exactly the valid prefix of messages. -/
theorem C8_total_best_effort :
    parse_engineio_payload [] = [] ∧
      (∀ (ps : List (List Nat)) (garbage : List Nat),
        (∀ p ∈ ps, ∀ b ∈ p, b ≠ 0) → (∀ b ∈ garbage, b ≠ 255) →
        parse_engineio_payload ((ps.map binFrame).flatten ++ 0 :: garbage) = ps) := by
  constructor
  · rfl
  · intro ps garbage hp hg
    exact parseGo_binChain ps garbage _ hp hg (le_refl _)

/-- C8 witness: two binary frames `"42"`, `"6"` followed by an
unterminated binary tail decode to exactly the two payloads. -/
theorem C8_witness :
    parse_engineio_payload (([[52, 50], [54]].map binFrame).flatten ++ 0 :: [9, 9]) =
      [[52, 50], [54]] :=
  C8_total_best_effort.2 [[52, 50], [54]] [9, 9] (by decide) (by decide)

/-- C5: an `update` event on path `/acm/<zone>/status` with a body,
against a store containing the zone key, replaces only that zone's
`status` entry with the body (its `setup`/`version` and every other
zone are untouched) and publishes; against a store without the key it is
a no-op: state unchanged, nothing published. -/
theorem C5_update_status (ctx : Ctx) (store : Store) (body : Smap)
    (ds : List Char) (hne : ds ≠ []) (hdig : ds.all Char.isDigit = true)
    (hdev : truthyStr ctx.device_id = true) :
    (∀ zold,
      store.find? (zoneKey (ctx.device_id.getD "") (digitsVal ds : Int)) = some zold →
      (handle_update_event ctx store (acmPrefix ++ (ds ++ '/' :: statusChars)) body).1.find?
          (zoneKey (ctx.device_id.getD "") (digitsVal ds : Int)) =
        some { zold with status := some body } ∧
      (∀ k, k ≠ zoneKey (ctx.device_id.getD "") (digitsVal ds : Int) →
        (handle_update_event ctx store (acmPrefix ++ (ds ++ '/' :: statusChars)) body).1.find? k =
          store.find? k) ∧
      (handle_update_event ctx store (acmPrefix ++ (ds ++ '/' :: statusChars)) body).2 = true) ∧
    (store.find? (zoneKey (ctx.device_id.getD "") (digitsVal ds : Int)) = none →
      handle_update_event ctx store (acmPrefix ++ (ds ++ '/' :: statusChars)) body =
        (store, false)) := by
  have hds_slash : ∀ c ∈ ds, c ≠ '/' := by
    intro c hc hcontra
    have hcd := List.all_eq_true.mp hdig c hc
    rw [hcontra] at hcd
    exact absurd hcd (by decide)
  have hsplit := splitChar_acm_status ds hds_slash
  have hacm := containsAcm_append (ds ++ '/' :: statusChars)
  have hparse := parseIntChars_digits ds hne hdig
  have hred : handle_update_event ctx store (acmPrefix ++ (ds ++ '/' :: statusChars)) body =
      (match store.find? (zoneKey (ctx.device_id.getD "") (digitsVal ds : Int)) with
       | some zone =>
         (store.insert (zoneKey (ctx.device_id.getD "") (digitsVal ds : Int))
           { zone with status := some body }, true)
       | none => (store, false)) := by
    unfold handle_update_event
    rw [hacm, if_pos rfl]
    simp only [hsplit, hparse, hdev, updateZone, List.length_cons,
      List.length_nil, List.getD_cons_succ, List.getD_cons_zero]
    norm_num
  constructor
  · intro zold hfind
    rw [hred, hfind]
    refine ⟨?_, ?_, ?_⟩
    · simp [Store.find?_insert_self]
    · intro k hk
      simpa using Store.find?_insert_ne store _ k _ hk
    · rfl
  · intro hnone
    rw [hred, hnone]

/-- C5 witness: the spec's own example — body `{"mtemp":"22"}` on path
`/acm/3/status` against a store containing `D1_zone3` replaces that
zone's status and publishes; setup and version are untouched because
only the status field changes. -/
theorem C5_witness :
    (handle_update_event exCtx exStore (acmPrefix ++ (['3'] ++ '/' :: statusChars))
        [("mtemp", "22")]).1.find?
      (zoneKey (exCtx.device_id.getD "") (digitsVal ['3'] : Int)) =
      some { exZone3 with status := some [("mtemp", "22")] } ∧
    (handle_update_event exCtx exStore (acmPrefix ++ (['3'] ++ '/' :: statusChars))
        [("mtemp", "22")]).2 = true := by
  have h := (C5_update_status exCtx exStore [("mtemp", "22")] ['3']
    (by decide) (by decide) (by decide)).1 exZone3 (by decide)
  exact ⟨h.1, h.2.2⟩

/-- C4 counterexample: a `dev_data` node `{addr: 2}` for the known zone
`D1_zone2` whose stored status is `{"mtemp":"21"}` does NOT leave that
status unchanged: `node.get("status", {})` defaults to `{}` and
`zone.update` overwrites the existing status (and setup and version)
with the empty dict. -/
theorem C4_counterexample :
    (handle_dev_data_event exCtx [("D1_zone2", c4Old)]
        [{ addr := some 2 }]).1.find? "D1_zone2" = some c4New ∧
      c4Old.status = some [("mtemp", "21")] ∧ c4New.status = some [] ∧
      c4Old.setup ≠ c4New.setup ∧ c4Old.version ≠ c4New.version ∧
      c4Old.status ≠ c4New.status :=
  ⟨by decide, by decide, by decide, by decide, by decide, by decide⟩

/-- C4 (amended): handling a `dev_data` event carrying a node for an
already-known (nonempty) zone OVERWRITES the zone's `status`, `setup`
and `version` with the node's values, defaulting to `{}` for fields
absent from the node (existing values are not preserved); only `name`
falls back to the stored name, `device_name`/`group_name` are rewritten
from the coordinator context, and the identity fields (`dev_id`,
`device_id`, `group_id`, `zone_id`) carry over; other zones are
untouched and the event publishes.  A node for an unknown zone key
creates the zone seeded with the device and group context. -/
theorem C4_merge_amended (ctx : Ctx) (store : Store) (node : Node) (a : Int)
    (ha : node.addr = some a) (ha0 : a ≠ 0)
    (hdev : truthyStr ctx.device_id = true) :
    (∀ zold, store.find? (zoneKey (ctx.device_id.getD "") a) = some zold →
      zold.pyEmpty = false →
      (handle_dev_data_event ctx store [node]).1.find?
          (zoneKey (ctx.device_id.getD "") a) =
        some { zold with
          name := node.name <|> zold.name
          device_name := ctx.device_name
          group_name := ctx.group_name
          status := some (node.status.getD [])
          setup := some (node.setup.getD [])
          version := some (node.version.getD []) } ∧
      (∀ k, k ≠ zoneKey (ctx.device_id.getD "") a →
        (handle_dev_data_event ctx store [node]).1.find? k = store.find? k) ∧
      (handle_dev_data_event ctx store [node]).2 = true) ∧
    (store.find? (zoneKey (ctx.device_id.getD "") a) = none →
      (handle_dev_data_event ctx store [node]).1.find?
          (zoneKey (ctx.device_id.getD "") a) =
        some { dev_id := ctx.device_id, device_id := ctx.device_id,
               device_name := ctx.device_name, group_id := ctx.group_id,
               group_name := ctx.group_name, zone_id := some a,
               name := some (node.name.getD ("Zone " ++ toString a)),
               status := some (node.status.getD []),
               setup := some (node.setup.getD []),
               version := some (node.version.getD []) }) := by
  have ha0' : (a != 0) = true := by simp [bne_iff_ne, ha0]
  have hnodes : ([node].isEmpty : Bool) = false := by simp
  have hfold : (handle_dev_data_event ctx store [node]).1 =
      devDataApplyNode ctx store node := by
    simp [handle_dev_data_event]
  have hpub : (handle_dev_data_event ctx store [node]).2 = true := by
    simp [handle_dev_data_event]
  constructor
  · intro zold hfind hne
    have happ : devDataApplyNode ctx store node =
        store.insert (zoneKey (ctx.device_id.getD "") a)
          (devDataMerge ctx node zold) := by
      unfold devDataApplyNode
      rw [ha]
      simp [ha0', hdev, hfind, hne]
    refine ⟨?_, ?_, hpub⟩
    · rw [hfold, happ, Store.find?_insert_self]
      rfl
    · intro k hk
      rw [hfold, happ]
      exact Store.find?_insert_ne store _ k _ hk
  · intro hnone
    have happ : devDataApplyNode ctx store node =
        store.insert (zoneKey (ctx.device_id.getD "") a)
          (devDataMerge ctx node (devDataSeed ctx node a)) := by
      unfold devDataApplyNode
      rw [ha]
      simp [ha0', hdev, hnone, Zone.pyEmpty]
    rw [hfold, happ, Store.find?_insert_self]
    cases hn : node.name with
    | none => simp [devDataMerge, devDataSeed, hn]
    | some nm => simp [devDataMerge, devDataSeed, hn]

/-- C4 witness: the amended merge at a concrete known zone with a node
that carries only a new status: setup and version are clobbered to `{}`
and the stored name survives. -/
theorem C4_witness :
    (handle_dev_data_event exCtx exStore
        [{ addr := some 3, status := some [("mtemp", "23")] }]).1.find?
      (zoneKey (exCtx.device_id.getD "") 3) =
      some { exZone3 with
        name := some "Bed", device_name := some "Dev",
        group_name := some "Home", status := some [("mtemp", "23")],
        setup := some [], version := some [] } := by
  have h := ((C4_merge_amended exCtx exStore
    { addr := some 3, status := some [("mtemp", "23")] } 3 rfl
    (by decide) (by decide)).1 exZone3 (by decide) (by decide)).1
  simpa using h

/-- C10: a `dev_data` node whose `addr` is missing or 0 (falsy) is
skipped — it neither creates nor updates any zone — while the other
nodes of the same event are applied as usual and the event still
publishes. -/
theorem C10_falsy_addr_skipped (ctx : Ctx) (store : Store)
    (ns1 ns2 : List Node) (node : Node)
    (hbad : node.addr = none ∨ node.addr = some 0) :
    (handle_dev_data_event ctx store (ns1 ++ node :: ns2)).1 =
      (ns1 ++ ns2).foldl (devDataApplyNode ctx) store ∧
    (handle_dev_data_event ctx store (ns1 ++ node :: ns2)).2 = true := by
  have hskip : ∀ st, devDataApplyNode ctx st node = st := by
    intro st
    rcases hbad with h | h <;> simp [devDataApplyNode, h]
  constructor
  · have hnonempty : ((ns1 ++ node :: ns2).isEmpty : Bool) = false := by
      simp
    simp only [handle_dev_data_event, hnonempty, Bool.false_eq_true,
      if_false]
    rw [List.foldl_append, List.foldl_cons, hskip, ← List.foldl_append]
  · simp [handle_dev_data_event]

/-- C10 witness: a falsy node between two good nodes at concrete
inputs. -/
theorem C10_witness :
    (handle_dev_data_event exCtx []
        [{ addr := some 5, name := some "Attic" }, { addr := some 0 },
          { addr := some 7, name := some "Hall" }]).1 =
      ([{ addr := some 5, name := some "Attic" },
        { addr := some 7, name := some "Hall" }] : List Node).foldl
        (devDataApplyNode exCtx) [] ∧
    (handle_dev_data_event exCtx []
        [{ addr := some 5, name := some "Attic" }, { addr := some 0 },
          { addr := some 7, name := some "Hall" }]).2 = true := by
  exact C10_falsy_addr_skipped exCtx [] [{ addr := some 5, name := some "Attic" }]
    [{ addr := some 7, name := some "Hall" }] { addr := some 0 } (Or.inr rfl)

/-! ### Key-preservation lemmas for C2 -/

theorem handle_update_event_shape (ctx : Ctx) (store : Store)
    (path : List Char) (body : Smap) :
    (handle_update_event ctx store path body).1 = store ∨
      ∃ key v, (handle_update_event ctx store path body).1 =
        store.insert key v := by
  simp only [handle_update_event]
  repeat' split
  all_goals first
    | exact Or.inl rfl
    | exact Or.inr ⟨_, _, rfl⟩

theorem devDataApplyNode_keys (ctx : Ctx) (store : Store) (node : Node)
    (k : String) (hk : (store.find? k).isSome) :
    ((devDataApplyNode ctx store node).find? k).isSome := by
  unfold devDataApplyNode
  split
  · exact hk
  · split
    · exact Store.find?_isSome_insert _ _ _ _ hk
    · exact hk

theorem foldl_devData_keys (ctx : Ctx) :
    ∀ (nodes : List Node) (store : Store) (k : String),
      (store.find? k).isSome →
      ((nodes.foldl (devDataApplyNode ctx) store).find? k).isSome := by
  intro nodes
  induction nodes with
  | nil => intro store k hk; exact hk
  | cons n rest ih =>
    intro store k hk
    exact ih _ k (devDataApplyNode_keys ctx store n k hk)

/-- C2 counterexample: the zone key `D1_zone5`, once observed via a
`dev_data` event, is dropped again by this subsystem: the supervisor's
threshold REST fallback (lines 341-342) publishes the freshly built
mapping of `_fetch_initial_data`, which contains only the zones of the
new fetch, so the published key set is not a superset of the previously
published one. -/
theorem C2_counterexample :
    (((handle_dev_data_event exCtx []
          [{ addr := some 5, name := some "Attic" }]).1).find?
        "D1_zone5").isSome = true ∧
      ((fetchInitialFromNodes exCtx
          [{ addr := some 2, name := some "Bath" }]).find?
        "D1_zone5").isSome = false :=
  ⟨by decide, by decide⟩

/-- C2 (amended): the update-event handler, the dev_data handler and
the consumer-refresh REST fallback never remove zone keys (each
publishes a mapping whose key set contains the previous one), but the
supervisor's threshold-triggered REST fallback publishes a freshly
fetched mapping and can drop previously observed keys (see the
counterexample). -/
theorem C2_keys_amended :
    (∀ (ctx : Ctx) (store : Store) (path : List Char) (body : Smap)
        (k : String), (store.find? k).isSome →
      (((handle_update_event ctx store path body).1).find? k).isSome) ∧
    (∀ (ctx : Ctx) (store : Store) (nodes : List Node) (k : String),
        (store.find? k).isSome →
      (((handle_dev_data_event ctx store nodes).1).find? k).isSome) ∧
    (∀ (api : String → Int → Option Smap) (store : Store) (k : String),
        (store.find? k).isSome →
      (((rest_refresh api store).1).find? k).isSome) := by
  refine ⟨?_, ?_, ?_⟩
  · intro ctx store path body k hk
    rcases handle_update_event_shape ctx store path body with h | ⟨key, v, h⟩
    · rw [h]; exact hk
    · rw [h]; exact Store.find?_isSome_insert store key k v hk
  · intro ctx store nodes k hk
    unfold handle_dev_data_event
    split
    · exact hk
    · exact foldl_devData_keys ctx nodes store k hk
  · intro api store k hk
    cases hgo : restRefreshGo api store with
    | none => simp only [rest_refresh, hgo]; exact hk
    | some s' =>
      simp only [rest_refresh, hgo]
      have hfst := restRefreshGo_fst api store s' hgo
      rw [Store.find?_isSome_iff, hfst]
      rw [Store.find?_isSome_iff] at hk
      exact hk

/-- C2 witness: the amended key preservation at concrete inputs — an
update event and a dev_data event against the one-zone store keep the
key `D1_zone3`. -/
theorem C2_witness :
    ((exStore.find? "D1_zone3").isSome = true) ∧
      (((handle_update_event exCtx exStore
          (acmPrefix ++ (['3'] ++ '/' :: statusChars))
          [("mtemp", "22")]).1).find? "D1_zone3").isSome = true ∧
      (((handle_dev_data_event exCtx exStore
          [{ addr := some 7 }]).1).find? "D1_zone3").isSome = true := by
  refine ⟨by decide, ?_, ?_⟩
  · exact C2_keys_amended.1 exCtx exStore
      (acmPrefix ++ (['3'] ++ '/' :: statusChars)) [("mtemp", "22")]
      "D1_zone3" (by decide)
  · exact C2_keys_amended.2.1 exCtx exStore [{ addr := some 7 }]
      "D1_zone3" (by decide)

/-- C3 counterexample: from a fresh supervisor state, consecutive
failures 10 and 11 BOTH fire the REST fallback — the trigger condition
is `>= 10`, not `== 10` — so 11 consecutive failures (one crossing of
the threshold) fire two fallback fetches, not exactly one. -/
theorem C3_counterexample :
    (failStep (iterFail 9 {})).2.1 = true ∧
      (failStep (iterFail 10 {})).2.1 = true ∧
      runFailCount 11 {} = 2 :=
  ⟨by decide, by decide, by decide⟩

/-- C3 (amended): the REST fallback fires on every consecutive
connection failure from the 10th onward (one fetch per failure, not per
crossing) until the counter resets: over n consecutive failures from a
fresh state exactly n - 9 fallback fetches fire (0 when n ≤ 9), and a
successful connection resets the counter to 0. -/
theorem C3_fallback_amended (n : Nat) :
    runFailCount n {} = n - 9 ∧
      (∀ s : SupState, (successReset s).consecutiveFailures = 0) := by
  constructor
  · have h := runFailCount_from n ({} : SupState)
    simpa using h
  · intro s; rfl

/-- C6: the delay slept before reconnection attempt k+1 is the base 5 s
doubled once per preceding consecutive failure, capped at 60 s — so the
sequence is 5, 10, 20, 40, 60, 60, ... — and a successful connection
resets the delay to the base 5 s. -/
theorem C6_backoff (k : Nat) :
    (failStep (iterFail k {})).2.2 = min (5 * 2 ^ k) 60 ∧
      (List.range 6).map (fun i => (failStep (iterFail i {})).2.2) =
        [5, 10, 20, 40, 60, 60] ∧
      (∀ s : SupState, (successReset s).reconnectDelay = 5) := by
  refine ⟨?_, by decide, fun s => rfl⟩
  show (iterFail k {}).reconnectDelay = min (5 * 2 ^ k) 60
  exact iterFail_delay_init k

/-- C7 counterexample: a no-op frame "6" received at t = 30 — well
within the 40 s idle window of a check at t = 41 — does not update
`last_activity` (still 0 from the connect at t = 0), so the idle
watchdog forces a reconnect anyway: a no-op does NOT prevent the
idle-forced reconnect. -/
theorem C7_counterexample :
    procMsgs 30 0 ["6"] = 0 ∧ 41 - 30 ≤ 40 ∧
      idleForced 41 (procMsgs 30 0 ["6"]) = true :=
  ⟨by decide, by decide, by decide⟩

/-- C7 (amended): a poll's messages refresh `last_activity` to the
current time exactly when they contain a frame that is neither empty
nor the no-op "6"; empty and no-op frames leave the idle timer
untouched, so only non-no-op frames prevent the idle-forced
reconnect. -/
theorem C7_idle_amended (cur la : Nat) (msgs : List String) :
    procMsgs cur la msgs = if msgs.any nonNoop then cur else la :=
  procMsgs_characterization cur la msgs

/-- C9: with zero devices the bootstrap fetch surfaces a hard failure
(UpdateFailed, re-wrapped by the outer handler as "Failed to fetch
initial data") to its caller rather than returning a mapping, whatever
the remainder of the fetch would have done; every other outcome of the
fetch is either a mapping or that same single hard-failure path — any
exception in the remainder (token fetch, POST, polling) is re-wrapped
by the outer handler into the identical UpdateFailed; and when the same
fetch fails while running as the supervisor's threshold fallback, the
failure is absorbed: nothing is published and nothing propagates,
matching that routine errors during steady-state polling are absorbed
into reconnection. -/
theorem C9_bootstrap_failure :
    (∀ rest : Ctx → Except String Store,
      fetch_initial_data [] rest =
        Except.error "Failed to fetch initial data") ∧
    (∀ (devices : List DeviceInfo) (rest : Ctx → Except String Store),
      (∃ s, fetch_initial_data devices rest = Except.ok s) ∨
        fetch_initial_data devices rest =
          Except.error "Failed to fetch initial data") ∧
    (∀ (store : Store) (e : String),
      listenerFallbackStep store (Except.error e) = (store, false)) := by
  refine ⟨fun rest => rfl, ?_, fun store e => rfl⟩
  intro devices rest
  cases devices with
  | nil => exact Or.inr rfl
  | cons d ds =>
    cases h : rest (ctxOfDevice d) with
    | ok s => exact Or.inl ⟨s, by simp [fetch_initial_data, h]⟩
    | error e => exact Or.inr (by simp [fetch_initial_data, h])

/-- C9 witness: the hard failure at the concrete empty device
directory, applied with a remainder that would have succeeded, and the
supervisor absorbing a concrete failed fallback. -/
theorem C9_witness :
    fetch_initial_data [] (fun _ => Except.ok exStore) =
        Except.error "Failed to fetch initial data" ∧
      listenerFallbackStep exStore
          (Except.error "Failed to fetch initial data") = (exStore, false) :=
  ⟨C9_bootstrap_failure.1 (fun _ => Except.ok exStore),
    C9_bootstrap_failure.2.2 exStore "Failed to fetch initial data"⟩
